import Mathlib

/-!
Shallow embedding of the discord-mcp server (src/__main__.py and
src/discord_utils.py), written to check the repository's natural-language
specification against the code.

Modelling conventions:
* Python strings are Lean `String`s (lists of unicode characters); the
  character-class helpers (`isDigit`, `toLower`, ...) are exact on the ASCII
  range the source's regexes and comparisons use.
* The gateway client (discord.py `bot`) is a record holding the session
  snapshot (`guilds`, with their channels and members) plus the two remote
  fetch operations (`fetchUser`, `fetchMessage`) as abstract functions:
  these operations are network calls whose behaviour the code only observes
  through success / not-found / error.
* Async functions carry no concurrency in the engine (one logical flow per
  tool call), so they are embedded as pure functions; the resolver's mutable
  `_cache` dict is threaded explicitly as a `Cache` value.
* Regex scanning (`re.finditer`) is embedded as a fuel-indexed left-to-right
  scanner producing a segment list; fuel equal to the input length always
  suffices (each step consumes at least one character), and the fuel-0
  fallback emits plain characters so that reconstruction of the input holds
  for every fuel value.
* The Python dynamic-typing slip in `MentionProcessor.process_mentions`
  (binding the `(user, error)` tuple returned by `resolve_user` and then
  reading `.id` from it) is embedded as the `PyExn.attributeError` outcome:
  a tuple is always truthy in Python, so `if user:` always takes the true
  branch and the attribute access raises, whatever the resolution result.
-/

namespace DiscordMCP

/-- Python's `needle in hay` prefix step: does `needle` start `hay`. -/
def leadMatch : List Char → List Char → Bool
  | [], _ => true
  | _ :: _, [] => false
  | a :: as, b :: bs => a == b && leadMatch as bs

/-- Python's substring test `needle in hay` over character lists. -/
def subMatch (needle : List Char) : List Char → Bool
  | [] => needle.isEmpty
  | c :: rest => leadMatch needle (c :: rest) || subMatch needle rest

/-- Python's `needle in hay` on strings. -/
def strContains (hay needle : String) : Bool :=
  subMatch needle.toList hay.toList

/-- Decimal value of a digit string, Python's `int(s)` for digit-only `s`. -/
def digitsToNat (l : List Char) : Nat :=
  l.foldl (fun a c => 10 * a + (c.toNat - '0'.toNat)) 0

/-- Python `str.strip` whitespace class (ASCII part). -/
def pySpace (c : Char) : Bool :=
  c == ' ' || c == '\t' || c == '\n' || c == '\r' || c == '\x0b' || c == '\x0c'

/-- Python `str.strip()` on a character list. -/
def stripL (l : List Char) : List Char :=
  ((l.dropWhile pySpace).reverse.dropWhile pySpace).reverse

/-- Python `str.strip()`. -/
def pyStrip (s : String) : String :=
  String.mk (stripL s.toList)

/-- Python `str.lower()` (ASCII case folding, which covers the source's use). -/
def lowerStr (s : String) : String :=
  String.mk (s.toList.map Char.toLower)

/-- Association-list lookup standing in for a Python dict read. -/
def alookup (k : String) : List (String × Nat) → Option Nat
  | [] => none
  | (k2, v) :: t => if k2 = k then some v else alookup k t

/-- Python dict assignment `d[k] = v`: overwrite in place or append. -/
def ainsert (k : String) (v : Nat) : List (String × Nat) → List (String × Nat)
  | [] => [(k, v)]
  | (k2, v2) :: t => if k2 = k then (k2, v) :: t else (k2, v2) :: ainsert k v t

/-- Python dict deletion `del d[k]`. -/
def aerase (k : String) (l : List (String × Nat)) : List (String × Nat) :=
  l.filter (fun p => decide (p.1 ≠ k))

/-- A platform user (discord.py `User` / `Member`): id, handle `name`, and
optional `global_name`. -/
structure User where
  id : Nat
  name : String
  global_name : Option String
deriving DecidableEq

/-- Kind tag of a channel, standing in for the discord.py channel classes the
source dispatches on with `isinstance` / `type(...).__name__`. -/
inductive ChanKind
  | text
  | voice
  | forum
deriving DecidableEq

/-- Python `type(channel).__name__` for the modelled channel classes. -/
def kindName : ChanKind → String
  | ChanKind.text => "TextChannel"
  | ChanKind.voice => "VoiceChannel"
  | ChanKind.forum => "ForumChannel"

/-- A channel in the session snapshot; `guildId` / `guildName` are the
back-references `channel.guild.id` / `channel.guild.name`. -/
structure Channel where
  id : Nat
  name : String
  kind : ChanKind
  guildId : Nat
  guildName : String
deriving DecidableEq

/-- A guild (server) in the session snapshot. -/
structure Guild where
  id : Nat
  name : String
  channels : List Channel
  members : List User
deriving DecidableEq

/-- Result of the remote `bot.fetch_user` call: success, `discord.NotFound`,
or any other exception with its text. -/
inductive FetchRes
  | ok (u : User)
  | notFound
  | err (msg : String)
deriving DecidableEq

/-- Whether a fetch produced a user. -/
def FetchRes.isOk : FetchRes → Bool
  | FetchRes.ok _ => true
  | _ => false

/-- The located message object for the edit/react tools: the source scans
every text channel calling `channel.fetch_message`, swallowing failures;
that remote search is abstracted as `fetchMessage` on the bot. -/
structure MsgObj where
  id : Nat
  channelName : String
deriving DecidableEq

/-- The gateway client: session snapshot plus remote fetch operations. -/
structure Bot where
  guilds : List Guild
  fetchUser : Nat → FetchRes
  fetchMessage : Nat → Option MsgObj

/-- discord.py `bot.get_guild`: session lookup by id. -/
def Bot.get_guild (bot : Bot) (i : Nat) : Option Guild :=
  bot.guilds.find? (fun g => g.id == i)

/-- discord.py `bot.get_all_channels()`: every channel of every guild. -/
def Bot.get_all_channels (bot : Bot) : List Channel :=
  (bot.guilds.map Guild.channels).flatten

/-- discord.py `bot.get_channel`: session lookup by id (any channel kind). -/
def Bot.get_channel (bot : Bot) (i : Nat) : Option Channel :=
  bot.get_all_channels.find? (fun ch => ch.id == i)

/-- All members of all guilds in nested-loop order, as iterated by
`resolve_user`'s search. -/
def Bot.allMembers (bot : Bot) : List User :=
  (bot.guilds.map Guild.members).flatten

/-- The resolver's `_cache` dict: name → id per entity kind.  Channel keys
are the source's `f"{guild.id if guild else 'global'}:{name.lower()}"`
strings. -/
structure Cache where
  servers : List (String × Nat)
  channels : List (String × Nat)
  users : List (String × Nat)
deriving DecidableEq

/-- The empty cache a fresh `DiscordResolver` starts with. -/
def cache0 : Cache :=
  { servers := [], channels := [], users := [] }

/-- `DiscordResolver.is_snowflake`: `s.isdigit() and 17 <= len(s) <= 20`. -/
def is_snowflake (s : String) : Bool :=
  (!s.toList.isEmpty && s.toList.all Char.isDigit)
    && (17 ≤ s.toList.length && s.toList.length ≤ 20)

/-- `DiscordResolver.parse_target`: split on the first `/` into
(server part, target part) unless the whole string is a snowflake. -/
def parse_target (target : String) : Option String × String :=
  if target.toList.contains '/' && !is_snowflake target then
    (some (pyStrip (String.mk (target.toList.takeWhile (fun ch => ch != '/')))),
     pyStrip (String.mk ((target.toList.dropWhile (fun ch => ch != '/')).tail)))
  else
    (none, pyStrip target)

/-- The bullet list of visible server names used in `resolve_server`'s
not-found message. -/
def serverListText (bot : Bot) : String :=
  String.intercalate "\n" (bot.guilds.map (fun g => "  • " ++ g.name))

/-- The cache-hit re-validation of `resolve_server`: the guild the cached
id still resolves to, if any. -/
def cachedGuild (bot : Bot) (c : Cache) (key : String) : Option Guild :=
  match alookup key c.servers with
  | some gid => bot.get_guild gid
  | none => none

/-- `DiscordResolver.resolve_server`.  State passing: the returned `Cache`
is the resolver's `_cache["servers"]` after the call.  On a cache hit whose
id no longer resolves live, the source falls through to the name search
without deleting the entry. -/
def resolve_server (bot : Bot) (c : Cache) (input : String) :
    (Option Guild × Option String) × Cache :=
  if is_snowflake input then
    match bot.get_guild (digitsToNat input.toList) with
    | some g => ((some g, none), c)
    | none =>
        ((none, some ("ERROR: '" ++ input ++
          "' is not a valid server ID. No server with this ID exists.")), c)
  else
    match cachedGuild bot c (lowerStr input) with
    | some g => ((some g, none), c)
    | none =>
        match bot.guilds.find? (fun g => lowerStr g.name == lowerStr input) with
        | some g =>
            ((some g, none),
             { c with servers := ainsert (lowerStr input) g.id c.servers })
        | none =>
            ((none, some ("ERROR: '" ++ input ++
              "' is not a valid server name. Available servers:\n" ++
              serverListText bot ++
              "\n\nUse the exact server name or use list_servers tool to see all servers with IDs.")), c)

/-- The source's channel cache key
`f"{guild.id if guild else 'global'}:{channel_input.lower()}"`. -/
def chanKey (guild : Option Guild) (input : String) : String :=
  (match guild with
   | some g => Nat.repr g.id
   | none => "global") ++ ":" ++ lowerStr input

/-- The candidate pool of `resolve_channel`'s name search: the scoped
guild's channels, or every channel of the session. -/
def chanPool (bot : Bot) (guild : Option Guild) : List Channel :=
  match guild with
  | some g => g.channels
  | none => bot.get_all_channels

/-- The name-search matches of `resolve_channel`: text channels whose
lowercased name equals the lowercased input. -/
def chanMatches (bot : Bot) (guild : Option Guild) (input : String) : List Channel :=
  (chanPool bot guild).filter
    (fun ch => ch.kind == ChanKind.text && lowerStr ch.name == lowerStr input)

/-- The zero-match error text of `resolve_channel`'s name search. -/
def chanNotFoundMsg (input : String) (guild : Option Guild) : String :=
  match guild with
  | some g =>
      "ERROR: There is no channel called '" ++ input ++ "' in server '" ++
        g.name ++ "'. Use the list_channels tool to see available channels."
  | none =>
      "ERROR: There is no channel called '" ++ input ++
        "' in any server. Try specifying the server like 'ServerName/" ++ input ++
        "' or use the list_channels tool."

/-- The multi-server ambiguity error text of `resolve_channel`. -/
def chanAmbiguousMsg (input : String) (ms : List Channel) : String :=
  "ERROR: Multiple channels named '" ++ input ++
    "' found in different servers:\n" ++
    String.intercalate "\n"
      (ms.map (fun ch => "  • " ++ ch.guildName ++ " → #" ++ ch.name)) ++
    "\n\nYou MUST specify which server using format 'ServerName/" ++ input ++
    "' or use the channel ID."

/-- The cache-hit re-validation of `resolve_channel`: the channel the
cached id still resolves to, if any (no text-ness re-check). -/
def cachedChannel (bot : Bot) (c : Cache) (key : String) : Option Channel :=
  match alookup key c.channels with
  | some cid => bot.get_channel cid
  | none => none

/-- `DiscordResolver.resolve_channel`.  The identifier path takes any live
channel and rejects non-text ones with a distinct message; the cache-hit
path returns whatever channel the cached id resolves to, without a type
re-check; the name search filters to text channels only. -/
def resolve_channel (bot : Bot) (c : Cache) (input : String) (guild : Option Guild) :
    (Option Channel × Option String) × Cache :=
  if is_snowflake input then
    match bot.get_channel (digitsToNat input.toList) with
    | some ch =>
        if ch.kind == ChanKind.text then ((some ch, none), c)
        else
          ((none, some ("ERROR: '" ++ input ++
            "' is a valid ID but it's not a text channel (it's a " ++
            kindName ch.kind ++ ").")), c)
    | none =>
        ((none, some ("ERROR: '" ++ input ++
          "' is not a valid channel ID. No channel with this ID exists.")), c)
  else
    match cachedChannel bot c (chanKey guild input) with
    | some ch => ((some ch, none), c)
    | none =>
        match chanMatches bot guild input with
        | [] => ((none, some (chanNotFoundMsg input guild)), c)
        | [ch] =>
            ((some ch, none),
             { c with channels := ainsert (chanKey guild input) ch.id c.channels })
        | ch1 :: ch2 :: more =>
            match guild with
            | none =>
                ((none, some (chanAmbiguousMsg input (ch1 :: ch2 :: more))), c)
            | some _ =>
                ((none, some "ERROR: Unexpected situation - multiple channels with same name in one server"), c)

/-- Python `user_input.lstrip('@')`. -/
def stripAts (s : String) : String :=
  String.mk (s.toList.dropWhile (fun ch => ch == '@'))

/-- The cache block of `resolve_user`: a cache hit is re-validated by a
live fetch; on any fetch failure (bare `except:`) the stale entry is
deleted; the possibly shrunk cache is returned alongside the result. -/
def userCacheStep (bot : Bot) (c : Cache) (key : String) : Option User × Cache :=
  match alookup key c.users with
  | some uid =>
      match bot.fetchUser uid with
      | FetchRes.ok u => (some u, c)
      | _ => (none, { c with users := aerase key c.users })
  | none => (none, c)

/-- The member-search predicate of `resolve_user`: match on the handle or
the global display name, case-insensitively. -/
def userNameHit (key : String) (m : User) : Bool :=
  lowerStr m.name == key ||
    (match m.global_name with
     | some gn => lowerStr gn == key
     | none => false)

/-- `DiscordResolver.resolve_user`.  The name path deletes a stale cache
entry (bare `except:` around the re-validating fetch) before falling back
to the member search. -/
def resolve_user (bot : Bot) (c : Cache) (user_input : String) :
    (Option User × Option String) × Cache :=
  if is_snowflake (stripAts user_input) then
    match bot.fetchUser (digitsToNat (stripAts user_input).toList) with
    | FetchRes.ok u => ((some u, none), c)
    | FetchRes.notFound =>
        ((none, some ("ERROR: '" ++ stripAts user_input ++
          "' is not a valid user ID. No user with this ID exists.")), c)
    | FetchRes.err e =>
        ((none, some ("ERROR: Could not fetch user with ID '" ++
          stripAts user_input ++ "': " ++ e)), c)
  else
    match userCacheStep bot c (lowerStr (stripAts user_input)) with
    | (some u, c2) => ((some u, none), c2)
    | (none, c2) =>
        match bot.allMembers.find? (userNameHit (lowerStr (stripAts user_input))) with
        | some m =>
            ((some m, none),
             { c2 with users := ainsert (lowerStr (stripAts user_input)) m.id c2.users })
        | none =>
            ((none, some ("ERROR: No user found with username '" ++ user_input ++
              "'. Make sure the username is spelled correctly or use the user's ID instead.")), c2)

/-- The Python exception raised inside the engine: the sigil pass of
`process_mentions` reads `.id` from the `(user, error)` tuple returned by
`resolve_user` (Python: AttributeError). -/
inductive PyExn
  | attributeError
deriving DecidableEq

/-- Python `str(e)` for the modelled exception, as interpolated into the
tool handler's generic `f"Error: {str(e)}"` reply. -/
def pyExnMsg : PyExn → String
  | PyExn.attributeError => "'tuple' object has no attribute 'id'"

/-- The character class of pattern 1 of `process_mentions`:
`@([a-zA-Z0-9_\.]+)`. -/
def atClass (c : Char) : Bool :=
  c.isAlpha || c.isDigit || c == '_' || c == '.'

/-- Python `\w` (ASCII range, which is what the scanned text uses). -/
def isWordChar (c : Char) : Bool :=
  c.isAlpha || c.isDigit || c == '_'

/-- A segment of the pattern-1 scan: a passthrough character or a matched
`@name` span (the span's captured name, sigil excluded). -/
inductive AtSeg
  | chr (c : Char)
  | men (nm : List Char)
deriving DecidableEq

/-- The original text of a pattern-1 segment. -/
def atOrig : AtSeg → List Char
  | AtSeg.chr c => [c]
  | AtSeg.men nm => '@' :: nm

/-- Left-to-right `re.finditer` scan for `@([a-zA-Z0-9_\.]+)`: at `@`, the
greedy capture is the maximal run of class characters; scanning resumes
after each match.  Fuel-indexed; fuel = input length suffices, and the
fuel-0 fallback passes the rest through unmatched. -/
def scanAt : Nat → List Char → List AtSeg
  | 0, cs => cs.map AtSeg.chr
  | _ + 1, [] => []
  | fuel + 1, c :: rest =>
      if c == '@' && !(rest.takeWhile atClass).isEmpty then
        AtSeg.men (rest.takeWhile atClass) :: scanAt fuel (rest.dropWhile atClass)
      else
        AtSeg.chr c :: scanAt fuel rest

/-- The pattern-1 segments of a message. -/
def atSegs (s : String) : List AtSeg :=
  scanAt s.toList.length s.toList

/-- Pattern-1 replacement pass of `process_mentions`.  A captured snowflake
is rewritten inline to `<@id>`.  For any other captured name the source
binds the whole `(user, error)` tuple from `resolve_user`; the tuple is
truthy, so `f"<@{user.id}>"` is evaluated on it and raises AttributeError —
the resolver it consulted is a fresh local with its own empty cache, so the
call has no other observable effect. -/
def applyAt : List AtSeg → Except PyExn (List Char)
  | [] => Except.ok []
  | AtSeg.chr c :: t => (applyAt t).map (fun r => c :: r)
  | AtSeg.men nm :: t =>
      if is_snowflake (String.mk nm) then
        (applyAt t).map (fun r => '<' :: '@' :: (nm ++ '>' :: r))
      else
        Except.error PyExn.attributeError

/-- A segment of the pattern-2 (raw snowflake) scan. -/
inductive RawSeg
  | chr (c : Char)
  | run (ds : List Char)
deriving DecidableEq

/-- The original text of a pattern-2 segment. -/
def rawOrig : RawSeg → List Char
  | RawSeg.chr c => [c]
  | RawSeg.run ds => ds

/-- The lookbehind `(?<![<@\w])` of pattern 2, over the previous character. -/
def blockedBefore : Option Char → Bool
  | none => false
  | some p => p == '<' || p == '@' || isWordChar p

/-- The lookahead `(?![>\w])` of pattern 2, over the following text. -/
def lookAfter : List Char → Bool
  | [] => true
  | x :: _ => !(x == '>' || isWordChar x)

/-- Greedy backtracking of `(\d{17,20})(?![>\w])` at one position: try the
lengths in the given (descending) order; a length matches when that many
digits are available and the lookahead holds after them. -/
def tryRawLens (tail : List Char) : List Nat → Option (List Char × List Char)
  | [] => none
  | L :: Ls =>
      if (tail.take L).length == L && (tail.take L).all Char.isDigit
          && lookAfter (tail.drop L) then
        some (tail.take L, tail.drop L)
      else
        tryRawLens tail Ls

/-- Left-to-right `re.finditer` scan for `(?<![<@\w])(\d{17,20})(?![>\w])`,
fuel-indexed like `scanAt`. -/
def scanRaw : Nat → Option Char → List Char → List RawSeg
  | 0, _, cs => cs.map RawSeg.chr
  | _ + 1, _, [] => []
  | fuel + 1, prev, c :: rest =>
      if blockedBefore prev then
        RawSeg.chr c :: scanRaw fuel (some c) rest
      else
        match tryRawLens (c :: rest) [20, 19, 18, 17] with
        | some (m, r) => RawSeg.run m :: scanRaw fuel (some (m.getLastD c)) r
        | none => RawSeg.chr c :: scanRaw fuel (some c) rest

/-- The pattern-2 segments of a message. -/
def rawSegs (s : String) : List RawSeg :=
  scanRaw s.toList.length none s.toList

/-- Whether the pattern-2 scan found any match (the source's
`re.search(pattern_raw, message)` guard). -/
def hasRun (segs : List RawSeg) : Bool :=
  segs.any (fun sg => match sg with
    | RawSeg.run _ => true
    | _ => false)

/-- Pattern-2 replacement: fetch the digits as a user id; on success rewrite
to `<@digits>` (the source interpolates the matched digit string, not the
fetched user's id); on `discord.NotFound` or any other exception leave the
digits unchanged. -/
def replaceRun (fetch : Nat → FetchRes) : RawSeg → List Char
  | RawSeg.chr c => [c]
  | RawSeg.run ds =>
      match fetch (digitsToNat ds) with
      | FetchRes.ok _ => '<' :: '@' :: (ds ++ ['>'])
      | _ => ds

/-- The raw-identifier pass of `process_mentions` (pattern 2): rebuild the
message with each isolated 17-20 digit run replaced per `replaceRun`, but
only when the scan found at least one match. -/
def processRawIds (fetch : Nat → FetchRes) (s : String) : String :=
  if hasRun (rawSegs s) then
    String.mk (((rawSegs s).map (replaceRun fetch)).flatten)
  else s

/-- `MentionProcessor.process_mentions`: the sigil pass, then (on the pass-1
output) the raw-identifier pass.  The `guild` parameter mirrors the source
signature; the source body never reads it. -/
def process_mentions (bot : Bot) (message : String) (guild : Option Guild) :
    Except PyExn String :=
  match applyAt (atSegs message) with
  | Except.error e => Except.error e
  | Except.ok l1 => Except.ok (processRawIds bot.fetchUser (String.mk l1))

/-- A segment of the `humanize_mentions` scan for `<@!?(\d+)>`. -/
inductive MenSeg
  | chr (c : Char)
  | men (bang : Bool) (ds : List Char)
deriving DecidableEq

/-- The original text of a mention segment. -/
def menOrig : MenSeg → List Char
  | MenSeg.chr c => [c]
  | MenSeg.men bang ds =>
      '<' :: '@' :: ((if bang then ['!'] else []) ++ ds ++ ['>'])

/-- Parse of the text that follows `<@` in the `<@!?(\d+)>` pattern: the
optional `!` is taken greedily, then a nonempty maximal digit run must be
followed by `>`; returns the bang flag, the captured digits and the rest of
the text, or nothing if the pattern fails here. -/
def parseMenAfter (rest : List Char) : Option (Bool × List Char × List Char) :=
  match rest with
  | '!' :: rest2 =>
      (match rest2.takeWhile Char.isDigit, rest2.dropWhile Char.isDigit with
       | d :: ds, '>' :: r4 => some (true, d :: ds, r4)
       | _, _ => none)
  | _ =>
      match rest.takeWhile Char.isDigit, rest.dropWhile Char.isDigit with
      | d :: ds, '>' :: r4 => some (false, d :: ds, r4)
      | _, _ => none

/-- Left-to-right `re.finditer` scan for `<@!?(\d+)>`: a span starts at
`<@` when `parseMenAfter` accepts the following text; otherwise no match
starts here and scanning resumes one character later. -/
def scanMen : Nat → List Char → List MenSeg
  | 0, cs => cs.map MenSeg.chr
  | _ + 1, [] => []
  | fuel + 1, c :: rest =>
      match rest with
      | [] => MenSeg.chr c :: scanMen fuel []
      | c2 :: rest2 =>
          if c == '<' && c2 == '@' then
            match parseMenAfter rest2 with
            | some (bang, ds, r4) => MenSeg.men bang ds :: scanMen fuel r4
            | none => MenSeg.chr c :: scanMen fuel rest
          else MenSeg.chr c :: scanMen fuel rest

/-- The mention segments of a message. -/
def menSegs (s : String) : List MenSeg :=
  scanMen s.toList.length s.toList

/-- Replacement of one `<@id>` / `<@!id>` span in `humanize_mentions`: on a
successful fetch substitute `@` + `user.name`; on `discord.NotFound` or any
other exception substitute the `@[id]` fallback (with the original digit
string). -/
def replaceMen (fetch : Nat → FetchRes) : MenSeg → List Char
  | MenSeg.chr c => [c]
  | MenSeg.men _ ds =>
      match fetch (digitsToNat ds) with
      | FetchRes.ok u => '@' :: u.name.toList
      | _ => '@' :: '[' :: (ds ++ [']'])

/-- `MentionProcessor.humanize_mentions`. -/
def humanize_mentions (bot : Bot) (message : String) : String :=
  String.mk (((menSegs message).map (replaceMen bot.fetchUser)).flatten)

/-- discord.py `user.display_name` (modelled from the platform library:
the global display name when set, else the handle).  Used only to state
what the spec's "display name" denotes. -/
def User.display_name (u : User) : String :=
  match u.global_name with
  | some gn => gn
  | none => u.name

/-- Resolution attempts made by the send_message handler, in order:
a ghost trace used to state which resolvers were consulted. -/
inductive REv
  | rserver (s : String)
  | rchannel (s : String)
  | ruser (s : String)
deriving DecidableEq

/-- Outcome of the send_message handler: either a pure text reply, or a
performed network send (channel message or DM) with the transcoded
content. -/
inductive SendOut
  | reply (t : String)
  | sentChannel (ch : Channel) (content : String)
  | sentDM (u : User) (content : String)
deriving DecidableEq

/-- The tail of the send_message handler after the optional server scope is
resolved: try the target as a channel; on an ambiguity error (detected by
the `"Multiple channels" in error` substring test) reply immediately;
otherwise fall through to user DM resolution; if both fail, reply with the
concatenated report.  Mention-processing exceptions propagate to the tool
wrapper's generic `f"Error: {e}"` reply. -/
def sendAfterServer (bot : Bot) (c : Cache) (messageText target targetPart : String)
    (guild : Option Guild) (tr : List REv) : (SendOut × Cache) × List REv :=
  match resolve_channel bot c targetPart guild with
  | ((some ch, _), c2) =>
      (match process_mentions bot messageText none with
       | Except.ok pm => ((SendOut.sentChannel ch pm, c2), tr ++ [REv.rchannel targetPart])
       | Except.error e =>
           ((SendOut.reply ("Error: " ++ pyExnMsg e), c2), tr ++ [REv.rchannel targetPart]))
  | ((none, chErr), c2) =>
      if (match chErr with
          | some e => strContains e "Multiple channels"
          | none => false) then
        ((SendOut.reply (match chErr with
          | some e => e
          | none => ""), c2), tr ++ [REv.rchannel targetPart])
      else
        match resolve_user bot c2 targetPart with
        | ((some u, _), c3) =>
            (match process_mentions bot messageText none with
             | Except.ok pm =>
                 ((SendOut.sentDM u pm, c3),
                  tr ++ [REv.rchannel targetPart, REv.ruser targetPart])
             | Except.error e =>
                 ((SendOut.reply ("Error: " ++ pyExnMsg e), c3),
                  tr ++ [REv.rchannel targetPart, REv.ruser targetPart]))
        | ((none, uErr), c3) =>
            ((SendOut.reply ("ERROR: Could not find channel or user '" ++ target ++
                "'.\n\n" ++
                (match chErr with
                 | some e => "Channel lookup failed: " ++ e ++ "\n\n"
                 | none => "") ++
                (match uErr with
                 | some ue => "User lookup failed: " ++ ue
                 | none => "")), c3),
             tr ++ [REv.rchannel targetPart, REv.ruser targetPart])

/-- The send_message branch of `call_tool`: parse the target, resolve the
optional server scope, then run the channel-then-user chain. -/
def send_message (bot : Bot) (c : Cache) (messageText target : String) :
    (SendOut × Cache) × List REv :=
  match parse_target target with
  | (some sp, targetPart) =>
      (match resolve_server bot c sp with
       | ((some g, _), c1) =>
           sendAfterServer bot c1 messageText target targetPart (some g) [REv.rserver sp]
       | ((none, gErr), c1) =>
           ((SendOut.reply (match gErr with
             | some e => e
             | none => ""), c1), [REv.rserver sp]))
  | (none, targetPart) =>
      sendAfterServer bot c messageText target targetPart none []

/-- Outcome of the edit_message branch of `call_tool`. -/
inductive EditOut
  | invalid (t : String)
  | missing (t : String)
  | deleted (chName : String)
  | edited (chName : String) (content : String)
  | errorReply (t : String)
deriving DecidableEq

/-- The edit_message branch of `call_tool`: `arguments.get("message", "")`
defaults an omitted new content to the empty string; a blank new content
(empty or whitespace-only after `strip()`) deletes the located message,
any other content is mention-encoded and edited in; a mention-processing
exception propagates to the wrapper's generic error reply. -/
def edit_message (bot : Bot) (message_id : String) (message : Option String) : EditOut :=
  if !is_snowflake message_id then
    EditOut.invalid ("ERROR: '" ++ message_id ++
      "' is not a valid message ID. Message IDs must be 17-20 digit numbers.")
  else
    match bot.fetchMessage (digitsToNat message_id.toList) with
    | none =>
        EditOut.missing ("ERROR: Could not find message with ID " ++
          Nat.repr (digitsToNat message_id.toList) ++
          ". The message may have been deleted, or the bot doesn't have access to the channel containing this message.")
    | some m =>
        if (match message with
            | some t => t
            | none => "") == "" ||
           pyStrip (match message with
            | some t => t
            | none => "") == "" then
          EditOut.deleted m.channelName
        else
          match process_mentions bot (match message with
            | some t => t
            | none => "") none with
          | Except.ok pc => EditOut.edited m.channelName pc
          | Except.error e => EditOut.errorReply ("Error: " ++ pyExnMsg e)

/-- The `"required"` list of the edit_message tool's input schema in
`list_tools`. -/
def editToolRequired : List String :=
  ["message_id"]

/-- One message of a channel history page, in the order the platform
yields it (newest first); the timestamp is kept pre-rendered since
`strftime` is external formatting. -/
structure HMsg where
  id : Nat
  authorName : String
  ts : String
  content : String
deriving DecidableEq

/-- The per-message block both read_messages and search_messages append:
`f"[{timestamp}] {msg.author.name}: {content}\n  (ID: {msg.id})\n"` with
the content humanized. -/
def renderMsg (bot : Bot) (m : HMsg) : String :=
  "[" ++ m.ts ++ "] " ++ m.authorName ++ ": " ++ humanize_mentions bot m.content ++
    "\n  (ID: " ++ Nat.repr m.id ++ ")\n"

/-- The `messages` list of the read_messages branch after the append loop
and the final `messages.reverse()`. -/
def readMessagesLines (bot : Bot) (history : List HMsg) : List String :=
  ((history.map (renderMsg bot))).reverse

/-- The search_messages filter: `query in msg.content.lower()` with the
query lowercased at argument parse time. -/
def searchHit (q : String) (m : HMsg) : Bool :=
  strContains (lowerStr m.content) (lowerStr q)

/-- The `results` list of the search_messages branch after the filtering
append loop and the final `results.reverse()`. -/
def searchMessagesLines (bot : Bot) (q : String) (history : List HMsg) : List String :=
  ((history.filter (searchHit q)).map (renderMsg bot)).reverse

/-- The character just before a scan position: the last character of the
already-emitted text, else the scanner's carried previous character. -/
def lastCharOpt (l : List Char) (fb : Option Char) : Option Char :=
  match l.getLast? with
  | some c => some c
  | none => fb

/-- Hygiene of the channel cache with respect to the live session: any
cached id that still resolves resolves to a text channel.  This is the
invariant the program maintains on its own (entries are only written for
text channels and platform ids are never reused within a session). -/
def chanCacheOK (bot : Bot) (c : Cache) : Prop :=
  ∀ k id ch, alookup k c.channels = some id → bot.get_channel id = some ch →
    ch.kind = ChanKind.text

/-- Concrete session data used by the closed witness/counterexample
theorems below. -/
def aliceU : User :=
  { id := 111111111111111111, name := "alice", global_name := none }

/-- A user whose global display name differs from the handle. -/
def aliciaU : User :=
  { id := 111111111111111111, name := "alice", global_name := some "Alicia" }

/-- A session where `alice` is a visible member and fetchable by id. -/
def botAlice : Bot :=
  { guilds := [{ id := 1, name := "Home", channels := [], members := [aliceU] }],
    fetchUser := fun n => if n == 111111111111111111 then FetchRes.ok aliceU else FetchRes.notFound,
    fetchMessage := fun _ => none }

/-- A session where the fetchable user has a distinct display name. -/
def botAlicia : Bot :=
  { guilds := [{ id := 1, name := "Home", channels := [], members := [aliciaU] }],
    fetchUser := fun n => if n == 111111111111111111 then FetchRes.ok aliciaU else FetchRes.notFound,
    fetchMessage := fun _ => none }

/-- A voice channel whose id is a valid 17-digit snowflake. -/
def voiceCh : Channel :=
  { id := 10000000000000000, name := "vc", kind := ChanKind.voice,
    guildId := 5, guildName := "S" }

/-- A session containing only that voice channel, with no fetchable users. -/
def botVoice : Bot :=
  { guilds := [{ id := 5, name := "S", channels := [voiceCh], members := [] }],
    fetchUser := fun _ => FetchRes.notFound,
    fetchMessage := fun _ => none }

/-- The located message used by the edit tool examples. -/
def msgG : MsgObj :=
  { id := 10000000000000000, channelName := "general" }

/-- A session where exactly that message is locatable. -/
def botEdit : Bot :=
  { guilds := [],
    fetchUser := fun _ => FetchRes.notFound,
    fetchMessage := fun n => if n == 10000000000000000 then some msgG else none }

/-- A session with no guilds and no fetchable users. -/
def botEmpty : Bot :=
  { guilds := [], fetchUser := fun _ => FetchRes.notFound, fetchMessage := fun _ => none }

/-- A cache holding a stale server entry (id 999 resolves to nothing in
`botEmpty`). -/
def cacheStale : Cache :=
  { servers := [("myserver", 999)], channels := [], users := [] }

/-- A cache with one stale entry of every kind, for the cache-fallback
theorems. -/
def cacheStale3 : Cache :=
  { servers := [("x", 999)], channels := [("global:ch", 998)], users := [("y", 997)] }

/-- A voice channel named `general` in one server. -/
def voiceGen : Channel :=
  { id := 20000000000000000, name := "general", kind := ChanKind.voice,
    guildId := 7, guildName := "A" }

/-- A text channel named `general` in a different server. -/
def textGen : Channel :=
  { id := 30000000000000000, name := "general", kind := ChanKind.text,
    guildId := 8, guildName := "B" }

/-- A session where the name `general` is borne by one voice channel and
one text channel, in different servers. -/
def botMixed : Bot :=
  { guilds := [{ id := 7, name := "A", channels := [voiceGen], members := [] },
               { id := 8, name := "B", channels := [textGen], members := [] }],
    fetchUser := fun _ => FetchRes.notFound,
    fetchMessage := fun _ => none }

/-- A two-message history page in platform order (newest first). -/
def histW : List HMsg :=
  [{ id := 2, authorName := "b", ts := "t2", content := "new" },
   { id := 1, authorName := "a", ts := "t1", content := "old hit" }]

/-- Claim C1 (code bug): the sigil pass of `process_mentions` raises
AttributeError on every `@name` span whose captured name is not a
snowflake — even though `alice` resolves in this session — because the
`(user, error)` tuple returned by `resolve_user` is bound whole, is always
truthy, and has no `.id`.  The spec's promised success rewrite and the
cannot-fail guarantee both fail; only snowflake-shaped sigil spans are
rewritten. -/
theorem C1_sigil_pass_crashes :
    process_mentions botAlice "hello @alice" none = Except.error PyExn.attributeError ∧
    (resolve_user botAlice cache0 "alice").1.1 = some aliceU ∧
    process_mentions botAlice "hi @111111111111111111" none =
      Except.ok "hi <@111111111111111111>" := by
  refine ⟨rfl, ?_, rfl⟩
  decide

/-- Claim C2, counterexample: `resolve_server` hits a stale cache entry
(`myserver` maps to id 999, which no longer resolves live), falls back to
the fresh search (which fails), and the stale entry is still present
afterwards — it is not discarded as the claim states. -/
theorem C2_stale_entry_not_discarded :
    alookup "myserver" cacheStale.servers = some 999 ∧
    botEmpty.get_guild 999 = none ∧
    (resolve_server botEmpty cacheStale "myserver").1.1 = none ∧
    alookup "myserver" ((resolve_server botEmpty cacheStale "myserver").2).servers =
      some 999 := by
  decide

/-- Claim C3, counterexample: for a snowflake target that names a voice
channel, channel resolution fails with the distinct not-a-text-channel
error — not a NotFound — and the chain nevertheless falls through to user
resolution (the trace records the `resolve_user` attempt). -/
theorem C3_falls_through_on_not_text :
    (send_message botVoice cache0 "m" "10000000000000000").2 =
      [REv.rchannel "10000000000000000", REv.ruser "10000000000000000"] ∧
    (resolve_channel botVoice cache0 "10000000000000000" none).1.2 =
      some "ERROR: '10000000000000000' is a valid ID but it's not a text channel (it's a VoiceChannel)." ∧
    strContains
      "ERROR: '10000000000000000' is a valid ID but it's not a text channel (it's a VoiceChannel)."
      "There is no channel called" = false ∧
    strContains
      "ERROR: '10000000000000000' is a valid ID but it's not a text channel (it's a VoiceChannel)."
      "is not a valid channel ID" = false := by
  decide

/-- Claim C5, counterexample: `humanize_mentions` substitutes `@` followed
by the user's handle (`user.name`), not the user's display name, so for a
fetchable user whose global display name differs the claimed output is not
produced. -/
theorem C5_substitutes_handle_not_display_name :
    humanize_mentions botAlicia "<@111111111111111111>" = "@alice" ∧
    botAlicia.fetchUser 111111111111111111 = FetchRes.ok aliciaU ∧
    aliciaU.display_name = "Alicia" ∧
    humanize_mentions botAlicia "<@111111111111111111>" ≠
      "@" ++ aliciaU.display_name := by
  decide

/-- Claim C8 (code bug): blank content (empty or whitespace-only) routes to
delete and plain non-blank content routes to edit, as claimed; but a
non-blank content containing a plain `@name` mention is neither edited nor
deleted — mention encoding raises AttributeError (the `resolve_user` tuple
slip) and the tool degrades to the generic error reply. -/
theorem C8_blank_deletes_nonblank_edits :
    edit_message botEdit "10000000000000000" (some "") = EditOut.deleted "general" ∧
    edit_message botEdit "10000000000000000" (some "   ") = EditOut.deleted "general" ∧
    edit_message botEdit "10000000000000000" (some "new text") =
      EditOut.edited "general" "new text" ∧
    edit_message botEdit "10000000000000000" (some "@alice") =
      EditOut.errorReply "Error: 'tuple' object has no attribute 'id'" := by
  refine ⟨rfl, rfl, ?_, rfl⟩
  decide

/-- Claim C9: the edit_message schema requires only `message_id`; with the
`message` argument omitted the handler defaults the new content to the
empty string via `arguments.get("message", "")`, and a located target is
therefore deleted rather than rejected for a missing argument. -/
theorem C9_omitted_message_deletes (bot : Bot) (mid : String) (m : MsgObj)
    (h1 : is_snowflake mid = true)
    (h2 : bot.fetchMessage (digitsToNat mid.toList) = some m) :
    edit_message bot mid none = EditOut.deleted m.channelName ∧
    ¬ "message" ∈ editToolRequired ∧ "message_id" ∈ editToolRequired := by
  refine ⟨?_, by decide, by decide⟩
  simp only [String.toList] at h2
  simp [edit_message, h1, h2]

/-- Witness for C9 at a concrete session and message id. -/
theorem C9_omitted_message_deletes_witness :
    edit_message botEdit "10000000000000000" none = EditOut.deleted "general" ∧
    ¬ "message" ∈ editToolRequired ∧ "message_id" ∈ editToolRequired :=
  C9_omitted_message_deletes botEdit "10000000000000000" msgG (by decide) (by decide)

/-- Claim C6: `parse_target` splits on the first `/` with both sides
stripped exactly when the raw string contains `/` and is not itself a
snowflake; otherwise — including every pure-identifier string — it returns
no scope and the stripped input. -/
theorem C6_parse_target_first_slash (raw : String) :
    (('/' ∈ raw.toList ∧ is_snowflake raw = false) →
      ∃ a b : List Char, raw.toList = a ++ '/' :: b ∧ ¬ '/' ∈ a ∧
        parse_target raw = (some (pyStrip (String.mk a)), pyStrip (String.mk b))) ∧
    (¬ ('/' ∈ raw.toList ∧ is_snowflake raw = false) →
      parse_target raw = (none, pyStrip raw)) ∧
    (is_snowflake raw = true → parse_target raw = (none, pyStrip raw)) := by
  have hsplit : ∀ l : List Char, '/' ∈ l →
      ∃ xs, List.dropWhile (fun ch => ch != '/') l = '/' :: xs := by
    intro l hl
    induction l with
    | nil => cases hl
    | cons c t ih =>
        by_cases hc : c = '/'
        · subst hc
          exact ⟨t, by simp⟩
        · have hp : (c != '/') = true := by simp [hc]
          rcases List.mem_cons.mp hl with h | h
          · exact absurd h.symm hc
          · simpa only [List.dropWhile_cons, hp, if_true] using ih h
  have hmain : ∀ hmem : '/' ∈ raw.toList, ∀ hsf : is_snowflake raw = false,
      ∃ a b : List Char, raw.toList = a ++ '/' :: b ∧ ¬ '/' ∈ a ∧
        parse_target raw = (some (pyStrip (String.mk a)), pyStrip (String.mk b)) := by
    intro hmem hsf
    have hguard : (raw.toList.contains '/' && !is_snowflake raw) = true := by
      have hm2 : '/' ∈ raw.data := hmem
      simp [List.contains, List.elem_iff, hm2, hsf]
    obtain ⟨xs, hxs⟩ := hsplit raw.toList hmem
    refine ⟨raw.toList.takeWhile (fun ch => ch != '/'), xs, ?_, ?_, ?_⟩
    · calc raw.toList
          = raw.toList.takeWhile (fun ch => ch != '/') ++
              raw.toList.dropWhile (fun ch => ch != '/') :=
            (List.takeWhile_append_dropWhile (fun ch => ch != '/') raw.toList).symm
        _ = raw.toList.takeWhile (fun ch => ch != '/') ++ '/' :: xs := by
            rw [hxs]
    · intro hmemA
      have := List.all_eq_true.mp List.all_takeWhile '/' hmemA
      simp at this
    · unfold parse_target
      rw [if_pos hguard, hxs]
      rfl
  refine ⟨fun h => hmain h.1 h.2, ?_, ?_⟩
  · intro h
    unfold parse_target
    rw [if_neg]
    intro hg
    rw [Bool.and_eq_true] at hg
    exact h ⟨by
        have := hg.1
        simpa [List.contains, List.elem_iff] using this,
      by simpa using hg.2⟩
  · intro hsf
    unfold parse_target
    rw [if_neg]
    intro hg
    rw [Bool.and_eq_true] at hg
    rw [hsf] at hg
    simp at hg

/-- Witness for C6 at the spec's concrete examples. -/
theorem C6_parse_target_first_slash_witness :
    parse_target "general" = (none, "general") ∧
    parse_target "12345678901234567" = (none, "12345678901234567") ∧
    parse_target "MyServer/general" = (some "MyServer", "general") :=
  ⟨(C6_parse_target_first_slash "general").2.1 (by decide),
   (C6_parse_target_first_slash "12345678901234567").2.2 (by decide),
   by decide⟩

/-- Claim C7: read_messages and search_messages render messages
oldest-first — position `i` of the output holds the rendering of fetched
message `n - 1 - i`, the exact reverse of the newest-first platform fetch
order (for search, of the fetched messages matching the query). -/
theorem C7_output_reverses_fetch_order (bot : Bot) (history : List HMsg) (q : String)
    (i : Nat) :
    ((readMessagesLines bot history).length = history.length) ∧
    (i < history.length →
      (readMessagesLines bot history)[i]? =
        (history[history.length - 1 - i]?).map (renderMsg bot)) ∧
    ((searchMessagesLines bot q history).length =
      (history.filter (searchHit q)).length) ∧
    (i < (history.filter (searchHit q)).length →
      (searchMessagesLines bot q history)[i]? =
        ((history.filter (searchHit q))[(history.filter (searchHit q)).length - 1 - i]?).map
          (renderMsg bot)) := by
  refine ⟨by simp [readMessagesLines], fun hi => ?_, by simp [searchMessagesLines], fun hi => ?_⟩
  · rw [readMessagesLines, List.getElem?_reverse (by simpa using hi)]
    simp [List.getElem?_map]
  · rw [searchMessagesLines, List.getElem?_reverse (by simpa using hi)]
    simp [List.getElem?_map]

/-- Witness for C7 on a concrete two-message page: output slot 0 holds the
older fetched message, both for reading and for searching. -/
theorem C7_output_reverses_fetch_order_witness :
    ((readMessagesLines botEmpty histW)[0]? =
      (histW[histW.length - 1 - 0]?).map (renderMsg botEmpty)) ∧
    ((searchMessagesLines botEmpty "hit" histW)[0]? =
      ((histW.filter (searchHit "hit"))[(histW.filter (searchHit "hit")).length - 1 - 0]?).map
        (renderMsg botEmpty)) :=
  ⟨(C7_output_reverses_fetch_order botEmpty histW "hit" 0).2.1 (by decide),
   (C7_output_reverses_fetch_order botEmpty histW "hit" 0).2.2.2 (by decide)⟩

/-- A fuel-exhausted scan (all characters passed through) flattens back to
the text. -/
theorem flatten_chr_raw (cs : List Char) :
    ((cs.map RawSeg.chr).map rawOrig).flatten = cs := by
  induction cs with
  | nil => rfl
  | cons c rest ih =>
      show ((RawSeg.chr c :: rest.map RawSeg.chr).map rawOrig).flatten = c :: rest
      rw [List.map_cons, List.flatten_cons, ih]
      rfl

/-- What a successful greedy length attempt of pattern 2 guarantees. -/
theorem tryRawLens_eq (tail : List Char) (Ls : List Nat) (m r : List Char)
    (h : tryRawLens tail Ls = some (m, r)) :
    tail = m ++ r ∧ m.all Char.isDigit = true ∧ lookAfter r = true ∧
    m.length ∈ Ls := by
  induction Ls with
  | nil => simp [tryRawLens] at h
  | cons L Ls ih =>
      rw [tryRawLens] at h
      by_cases hc : ((tail.take L).length == L && (tail.take L).all Char.isDigit
          && lookAfter (tail.drop L)) = true
      · rw [if_pos hc] at h
        rw [Bool.and_eq_true, Bool.and_eq_true] at hc
        obtain ⟨⟨hlen, hdig⟩, hla⟩ := hc
        obtain ⟨h1, h2⟩ := Prod.mk.injEq _ _ _ _ ▸ Option.some.inj h
        subst h1
        subst h2
        refine ⟨(List.take_append_drop L tail).symm, hdig, hla, ?_⟩
        rw [Nat.beq_eq_true_eq] at hlen
        rw [hlen]
        exact List.mem_cons_self L Ls
      · rw [if_neg hc] at h
        obtain ⟨a1, a2, a3, a4⟩ := ih h
        exact ⟨a1, a2, a3, List.mem_cons_of_mem L a4⟩

/-- Reconstruction: the pattern-2 scan's segments flatten back to the
scanned text, for every fuel value. -/
theorem scanRaw_orig (fuel : Nat) (prev : Option Char) (cs : List Char) :
    ((scanRaw fuel prev cs).map rawOrig).flatten = cs := by
  induction fuel generalizing prev cs with
  | zero => exact flatten_chr_raw cs
  | succ n ih =>
      cases cs with
      | nil => simp [scanRaw]
      | cons c rest =>
          rw [scanRaw]
          by_cases hb : blockedBefore prev = true
          · rw [if_pos hb]
            simp [rawOrig, ih]
          · rw [if_neg hb]
            cases htl : tryRawLens (c :: rest) [20, 19, 18, 17] with
            | none => simp [rawOrig, ih]
            | some mr =>
                obtain ⟨m, r⟩ := mr
                obtain ⟨heq, _, _, _⟩ := tryRawLens_eq (c :: rest) [20, 19, 18, 17] m r htl
                simp only [List.map_cons, List.flatten_cons, rawOrig, ih]
                exact heq.symm

/-- Chasing the previous character across emitted text. -/
theorem lastCharOpt_append (a b : List Char) (fb : Option Char) :
    lastCharOpt (a ++ b) fb = lastCharOpt b (lastCharOpt a fb) := by
  cases b with
  | nil => simp [lastCharOpt]
  | cons x xs =>
      have hne : (x :: xs).getLast? ≠ none := by
        intro h0
        exact List.cons_ne_nil x xs (List.getLast?_eq_none_iff.mp h0)
      cases hxx : (x :: xs).getLast? with
      | none => exact absurd hxx hne
      | some l2 =>
          rw [lastCharOpt, lastCharOpt, List.getLast?_append, hxx]
          rfl

/-- The previous character of a singleton passthrough segment. -/
theorem lastCharOpt_single (c : Char) (fb : Option Char) :
    lastCharOpt [c] fb = some c :=
  rfl

/-- A nonempty emitted run fixes the carried previous character. -/
theorem lastCharOpt_ne_nil (m : List Char) (hm : m ≠ []) (fb : Option Char) (d : Char) :
    lastCharOpt m fb = some (m.getLastD d) := by
  cases hxx : m.getLast? with
  | none => exact absurd (List.getLast?_eq_none_iff.mp hxx) hm
  | some l2 =>
      rw [lastCharOpt, hxx, List.getLastD_eq_getLast?, hxx]
      rfl

/-- Context of every match of the pattern-2 scan: the matched run is 17-20
digits, the character before it (if any) is not `<`, `@` or a word
character, and the character after it (if any) is not `>` or a word
character. -/
theorem scanRaw_run_ctx (fuel : Nat) (prev : Option Char) (cs : List Char)
    (pre post : List RawSeg) (ds : List Char)
    (h : scanRaw fuel prev cs = pre ++ RawSeg.run ds :: post) :
    ds.all Char.isDigit = true ∧ 17 ≤ ds.length ∧ ds.length ≤ 20 ∧
    blockedBefore (lastCharOpt ((pre.map rawOrig).flatten) prev) = false ∧
    lookAfter ((post.map rawOrig).flatten) = true := by
  induction fuel generalizing prev cs pre with
  | zero =>
      exfalso
      have hmem : RawSeg.run ds ∈ cs.map RawSeg.chr := by
        rw [show cs.map RawSeg.chr = scanRaw 0 prev cs from rfl, h]
        exact List.mem_append_right pre (List.mem_cons_self _ post)
      obtain ⟨a, _, ha⟩ := List.mem_map.mp hmem
      exact RawSeg.noConfusion ha
  | succ n ih =>
      cases cs with
      | nil =>
          rw [scanRaw] at h
          exact absurd h.symm (List.append_ne_nil_of_right_ne_nil pre (List.cons_ne_nil _ _))
      | cons c rest =>
          rw [scanRaw] at h
          by_cases hb : blockedBefore prev = true
          · rw [if_pos hb] at h
            cases pre with
            | nil =>
                rw [List.nil_append] at h
                exact absurd (List.head_eq_of_cons_eq h) (fun hx => RawSeg.noConfusion hx)
            | cons s pre2 =>
                rw [List.cons_append] at h
                have hs := List.head_eq_of_cons_eq h
                have ht := List.tail_eq_of_cons_eq h
                obtain ⟨a1, a2, a3, a4, a5⟩ := ih (some c) rest pre2 ht
                refine ⟨a1, a2, a3, ?_, a5⟩
                rw [← hs]
                show blockedBefore
                  (lastCharOpt (([c] ++ (pre2.map rawOrig).flatten)) prev) = false
                rw [lastCharOpt_append, lastCharOpt_single]
                exact a4
          · rw [if_neg hb] at h
            cases htl : tryRawLens (c :: rest) [20, 19, 18, 17] with
            | none =>
                rw [htl] at h
                cases pre with
                | nil =>
                    rw [List.nil_append] at h
                    exact absurd (List.head_eq_of_cons_eq h) (fun hx => RawSeg.noConfusion hx)
                | cons s pre2 =>
                    rw [List.cons_append] at h
                    have hs := List.head_eq_of_cons_eq h
                    have ht := List.tail_eq_of_cons_eq h
                    obtain ⟨a1, a2, a3, a4, a5⟩ := ih (some c) rest pre2 ht
                    refine ⟨a1, a2, a3, ?_, a5⟩
                    rw [← hs]
                    show blockedBefore
                      (lastCharOpt (([c] ++ (pre2.map rawOrig).flatten)) prev) = false
                    rw [lastCharOpt_append, lastCharOpt_single]
                    exact a4
            | some mr =>
                obtain ⟨m, r⟩ := mr
                rw [htl] at h
                obtain ⟨heq, hdig, hla, hlen⟩ :=
                  tryRawLens_eq (c :: rest) [20, 19, 18, 17] m r htl
                have hlen2 : 17 ≤ m.length ∧ m.length ≤ 20 := by
                  have hl4 : m.length = 20 ∨ m.length = 19 ∨ m.length = 18 ∨
                      m.length = 17 := by simpa using hlen
                  omega
                have hmne : m ≠ [] := by
                  intro h0
                  rw [h0] at hlen2
                  simp at hlen2
                cases pre with
                | nil =>
                    rw [List.nil_append] at h
                    have hs := List.head_eq_of_cons_eq h
                    have ht := List.tail_eq_of_cons_eq h
                    have hm : m = ds := by
                      cases hs
                      rfl
                    subst hm
                    refine ⟨hdig, hlen2.1, hlen2.2, ?_, ?_⟩
                    · show blockedBefore (lastCharOpt [] prev) = false
                      show blockedBefore prev = false
                      exact Bool.not_eq_true _ ▸ Bool.of_not_eq_true hb
                    · rw [← ht, scanRaw_orig]
                      exact hla
                | cons s pre2 =>
                    rw [List.cons_append] at h
                    have hs := List.head_eq_of_cons_eq h
                    have ht := List.tail_eq_of_cons_eq h
                    obtain ⟨a1, a2, a3, a4, a5⟩ := ih (some (m.getLastD c)) r pre2 ht
                    refine ⟨a1, a2, a3, ?_, a5⟩
                    rw [← hs]
                    show blockedBefore
                      (lastCharOpt ((m ++ (pre2.map rawOrig).flatten)) prev) = false
                    rw [lastCharOpt_append, lastCharOpt_ne_nil m hmne prev c]
                    exact a4

/-- Claim C4: pattern 2 of `process_mentions` rewrites a digit run to
`<@digits>` exactly when it is 17-20 digits long, is not adjacent to word
characters or to the mention markers, and fetches as a user; everything
outside such runs — in particular every digit run of any other length —
passes through unchanged, and when no fetch succeeds the whole message is
unchanged. -/
theorem C4_raw_pass_isolated_snowflakes_only (fetch : Nat → FetchRes) (s : String) :
    (((rawSegs s).map rawOrig).flatten = s.toList) ∧
    (∀ pre post ds, rawSegs s = pre ++ RawSeg.run ds :: post →
      ds.all Char.isDigit = true ∧ 17 ≤ ds.length ∧ ds.length ≤ 20 ∧
      blockedBefore (lastCharOpt ((pre.map rawOrig).flatten) none) = false ∧
      lookAfter ((post.map rawOrig).flatten) = true ∧
      (∀ u, fetch (digitsToNat ds) = FetchRes.ok u →
        replaceRun fetch (RawSeg.run ds) = '<' :: '@' :: (ds ++ ['>'])) ∧
      ((fetch (digitsToNat ds)).isOk = false →
        replaceRun fetch (RawSeg.run ds) = ds)) ∧
    (processRawIds fetch s =
      if hasRun (rawSegs s) then
        String.mk (((rawSegs s).map (replaceRun fetch)).flatten)
      else s) ∧
    ((∀ n, (fetch n).isOk = false) → processRawIds fetch s = s) ∧
    (∀ f2 : Nat → FetchRes, processRawIds f2 "call 18005551234" = "call 18005551234") := by
  refine ⟨scanRaw_orig s.toList.length none s.toList, ?_, rfl, ?_, ?_⟩
  · intro pre post ds h
    obtain ⟨a1, a2, a3, a4, a5⟩ := scanRaw_run_ctx s.toList.length none s.toList pre post ds h
    refine ⟨a1, a2, a3, a4, a5, ?_, ?_⟩
    · intro u hu
      rw [replaceRun, hu]
    · intro hno
      cases hv : fetch (digitsToNat ds) with
      | ok u => rw [hv] at hno; exact absurd hno (by simp [FetchRes.isOk])
      | notFound => rw [replaceRun, hv]
      | err e => rw [replaceRun, hv]
  · intro hf
    rw [processRawIds]
    by_cases hr : hasRun (rawSegs s) = true
    · rw [if_pos hr]
      have hmap : (rawSegs s).map (replaceRun fetch) = (rawSegs s).map rawOrig := by
        apply List.map_congr_left
        intro sg _
        cases sg with
        | chr c => rfl
        | run ds =>
            cases hv : fetch (digitsToNat ds) with
            | ok u =>
                have := hf (digitsToNat ds)
                rw [hv] at this
                exact absurd this (by simp [FetchRes.isOk])
            | notFound => rw [replaceRun, hv, rawOrig]
            | err e => rw [replaceRun, hv, rawOrig]
      rw [hmap, rawSegs, scanRaw_orig]
      rfl
    · rw [if_neg hr]
  · intro f2
    rw [processRawIds, if_neg (by decide)]

/-- Witness for C4: in `"see 111111111111111111 ok"` the isolated 18-digit
run has the claimed shape and context and is rewritten iff the fetch
succeeds; a failing fetch leaves the message unchanged; and the phone
number example is untouched by every fetch. -/
theorem C4_raw_pass_isolated_snowflakes_only_witness :
    ("111111111111111111".toList.all Char.isDigit = true ∧
      17 ≤ "111111111111111111".toList.length ∧
      "111111111111111111".toList.length ≤ 20 ∧
      blockedBefore (lastCharOpt
        (([RawSeg.chr 's', RawSeg.chr 'e', RawSeg.chr 'e', RawSeg.chr ' '].map rawOrig).flatten)
        none) = false ∧
      lookAfter (([RawSeg.chr ' ', RawSeg.chr 'o', RawSeg.chr 'k'].map rawOrig).flatten) = true ∧
      (∀ u, botAlice.fetchUser (digitsToNat "111111111111111111".toList) = FetchRes.ok u →
        replaceRun botAlice.fetchUser (RawSeg.run "111111111111111111".toList) =
          '<' :: '@' :: ("111111111111111111".toList ++ ['>'])) ∧
      ((botAlice.fetchUser (digitsToNat "111111111111111111".toList)).isOk = false →
        replaceRun botAlice.fetchUser (RawSeg.run "111111111111111111".toList) =
          "111111111111111111".toList)) ∧
    processRawIds botEmpty.fetchUser "see 111111111111111111 ok" =
      "see 111111111111111111 ok" ∧
    processRawIds botAlice.fetchUser "call 18005551234" = "call 18005551234" :=
  ⟨(C4_raw_pass_isolated_snowflakes_only botAlice.fetchUser "see 111111111111111111 ok").2.1
      [RawSeg.chr 's', RawSeg.chr 'e', RawSeg.chr 'e', RawSeg.chr ' ']
      [RawSeg.chr ' ', RawSeg.chr 'o', RawSeg.chr 'k'] "111111111111111111".toList (by decide),
   (C4_raw_pass_isolated_snowflakes_only botEmpty.fetchUser "see 111111111111111111 ok").2.2.2.1
      (fun n => rfl),
   (C4_raw_pass_isolated_snowflakes_only botAlice.fetchUser "x").2.2.2.2 botAlice.fetchUser⟩

/-- A fuel-exhausted mention scan flattens back to the text. -/
theorem flatten_chr_men (cs : List Char) :
    ((cs.map MenSeg.chr).map menOrig).flatten = cs := by
  induction cs with
  | nil => rfl
  | cons c rest ih =>
      show ((MenSeg.chr c :: rest.map MenSeg.chr).map menOrig).flatten = c :: rest
      rw [List.map_cons, List.flatten_cons, ih]
      rfl

/-- What an accepted `<@...>` span parse guarantees: the consumed text is
the optional bang, the nonempty digit capture, then `>`. -/
theorem parseMenAfter_some (rest : List Char) (bang : Bool) (ds r4 : List Char)
    (h : parseMenAfter rest = some (bang, ds, r4)) :
    rest = (if bang then ['!'] else []) ++ ds ++ '>' :: r4 ∧ ds ≠ [] ∧
    ds.all Char.isDigit = true := by
  unfold parseMenAfter at h
  split at h
  · rename_i rest2
    split at h
    · rename_i d ds2 r42 heqt heqd
      injection h with h2
      rw [Prod.mk.injEq, Prod.mk.injEq] at h2
      obtain ⟨hb, hd, hr⟩ := h2
      subst hb
      subst hd
      subst hr
      have hrest2 : rest2 = (d :: ds2) ++ '>' :: r42 := by
        rw [← heqt, ← heqd, List.takeWhile_append_dropWhile]
      refine ⟨by simp [hrest2], List.cons_ne_nil d ds2, ?_⟩
      rw [← heqt]
      exact List.all_takeWhile
    · exact absurd h (by simp)
  · split at h
    · rename_i d ds2 r42 heqt heqd
      injection h with h2
      rw [Prod.mk.injEq, Prod.mk.injEq] at h2
      obtain ⟨hb, hd, hr⟩ := h2
      subst hb
      subst hd
      subst hr
      have hrest : rest = (d :: ds2) ++ '>' :: r42 := by
        rw [← heqt, ← heqd, List.takeWhile_append_dropWhile]
      refine ⟨by simp [hrest], List.cons_ne_nil d ds2, ?_⟩
      rw [← heqt]
      exact List.all_takeWhile
    · exact absurd h (by simp)

/-- Reconstruction: the mention scan's segments flatten back to the
scanned text, for every fuel value. -/
theorem scanMen_orig (fuel : Nat) (cs : List Char) :
    ((scanMen fuel cs).map menOrig).flatten = cs := by
  induction fuel generalizing cs with
  | zero => exact flatten_chr_men cs
  | succ n ih =>
      cases cs with
      | nil => rfl
      | cons c rest =>
          cases rest with
          | nil =>
              rw [scanMen.eq_3]
              simp [menOrig, ih]
          | cons c2 rest2 =>
              rw [scanMen.eq_4]
              by_cases hcc : (c == '<' && c2 == '@') = true
              · rw [if_pos hcc]
                rw [Bool.and_eq_true, beq_iff_eq, beq_iff_eq] at hcc
                obtain ⟨hc, hc2⟩ := hcc
                subst hc
                subst hc2
                cases hpm : parseMenAfter rest2 with
                | some t =>
                    obtain ⟨bang, ds, r4⟩ := t
                    obtain ⟨hrest, hne, hdig⟩ := parseMenAfter_some rest2 bang ds r4 hpm
                    simp only [List.map_cons, List.flatten_cons, menOrig, ih]
                    rw [hrest]
                    cases bang <;> simp
                | none => simp [menOrig, ih]
              · rw [if_neg hcc]
                simp [menOrig, ih]

/-- Shape of every matched mention span: a nonempty all-digit capture. -/
theorem scanMen_men_shape (fuel : Nat) (cs : List Char) (b : Bool) (ds : List Char)
    (h : MenSeg.men b ds ∈ scanMen fuel cs) :
    ds ≠ [] ∧ ds.all Char.isDigit = true := by
  induction fuel generalizing cs with
  | zero =>
      exfalso
      obtain ⟨a, _, ha⟩ := List.mem_map.mp h
      exact MenSeg.noConfusion ha
  | succ n ih =>
      cases cs with
      | nil => cases h
      | cons c rest =>
          cases rest with
          | nil =>
              rw [scanMen.eq_3] at h
              rcases List.mem_cons.mp h with h1 | h1
              · exact MenSeg.noConfusion h1
              · exact ih _ h1
          | cons c2 rest2 =>
              rw [scanMen.eq_4] at h
              by_cases hcc : (c == '<' && c2 == '@') = true
              · rw [if_pos hcc] at h
                cases hpm : parseMenAfter rest2 with
                | some t =>
                    obtain ⟨bang, ds2, r4⟩ := t
                    rw [hpm] at h
                    rcases List.mem_cons.mp h with h1 | h1
                    · obtain ⟨hrest, hne, hdig⟩ := parseMenAfter_some rest2 bang ds2 r4 hpm
                      injection h1 with hb hd
                      subst hd
                      exact ⟨hne, hdig⟩
                    · exact ih _ h1
                | none =>
                    rw [hpm] at h
                    rcases List.mem_cons.mp h with h1 | h1
                    · exact MenSeg.noConfusion h1
                    · exact ih _ h1
              · rw [if_neg hcc] at h
                rcases List.mem_cons.mp h with h1 | h1
                · exact MenSeg.noConfusion h1
                · exact ih _ h1

/-- Claim C5 (amended): `humanize_mentions` rewrites exactly the `<@id>`
and `<@!id>` spans (each span a nonempty digit capture located in the
message, everything outside passing through unchanged), substituting `@` +
the user's handle `user.name` when the fetch succeeds and the `@[id]`
fallback when it fails in any way; the operation is a total function and
cannot fail. -/
theorem C5_humanize_spans (bot : Bot) (s : String) :
    (((menSegs s).map menOrig).flatten = s.toList) ∧
    (∀ b ds, MenSeg.men b ds ∈ menSegs s → ds ≠ [] ∧ ds.all Char.isDigit = true) ∧
    (humanize_mentions bot s =
      String.mk (((menSegs s).map (replaceMen bot.fetchUser)).flatten)) ∧
    (∀ b ds,
      (∀ u, bot.fetchUser (digitsToNat ds) = FetchRes.ok u →
        replaceMen bot.fetchUser (MenSeg.men b ds) = '@' :: u.name.toList) ∧
      ((bot.fetchUser (digitsToNat ds)).isOk = false →
        replaceMen bot.fetchUser (MenSeg.men b ds) = '@' :: '[' :: (ds ++ [']']))) := by
  refine ⟨scanMen_orig s.toList.length s.toList, ?_, rfl, ?_⟩
  · intro b ds h
    exact scanMen_men_shape s.toList.length s.toList b ds h
  · intro b ds
    constructor
    · intro u hu
      rw [replaceMen, hu]
    · intro hno
      cases hv : bot.fetchUser (digitsToNat ds) with
      | ok u =>
          rw [hv] at hno
          exact absurd hno (by simp [FetchRes.isOk])
      | notFound => rw [replaceMen, hv]
      | err e => rw [replaceMen, hv]

/-- Witness for C5 at the spec's example id: the span shape holds, a
successful fetch substitutes the handle, a failing fetch substitutes the
bracketed fallback, and the end-to-end outputs match. -/
theorem C5_humanize_spans_witness :
    ("111111111111111111".toList ≠ [] ∧
      "111111111111111111".toList.all Char.isDigit = true) ∧
    replaceMen botAlice.fetchUser (MenSeg.men false "111111111111111111".toList) =
      '@' :: "alice".toList ∧
    replaceMen botEmpty.fetchUser (MenSeg.men false "111111111111111111".toList) =
      '@' :: '[' :: ("111111111111111111".toList ++ [']']) ∧
    humanize_mentions botAlice "<@111111111111111111>" = "@alice" ∧
    humanize_mentions botEmpty "<@111111111111111111>" = "@[111111111111111111]" :=
  ⟨(C5_humanize_spans botAlice "<@111111111111111111>").2.1 false
      "111111111111111111".toList (by decide),
   ((C5_humanize_spans botAlice "x").2.2.2 false "111111111111111111".toList).1 aliceU
      (by decide),
   ((C5_humanize_spans botEmpty "x").2.2.2 false "111111111111111111".toList).2 (by decide),
   by decide, by decide⟩

/-- Deleting a key really removes it from the cache dict. -/
theorem alookup_aerase (k : String) (l : List (String × Nat)) :
    alookup k (aerase k l) = none := by
  induction l with
  | nil => rfl
  | cons p t ih =>
      rw [aerase, List.filter_cons]
      by_cases hp : p.1 = k
      · rw [if_neg (by simp [hp])]
        simpa [aerase] using ih
      · rw [if_pos (by simp [hp])]
        rw [alookup, if_neg hp]
        simpa [aerase] using ih

/-- Claim C2 (amended): a cache hit whose id no longer resolves live always
falls back to a fresh search of the live data — the resolution outcome is
the same as with the stale entry absent — but only `resolve_user` discards
the stale entry; `resolve_server` and `resolve_channel` leave their caches
untouched whenever the fresh search fails (a successful search overwrites
the entry). -/
theorem C2_stale_hit_falls_back (bot : Bot) (c : Cache)
    (sIn cIn uIn : String) (g : Option Guild) (sid cid uid : Nat)
    (hs1 : is_snowflake sIn = false)
    (hs2 : alookup (lowerStr sIn) c.servers = some sid)
    (hs3 : bot.get_guild sid = none)
    (hc1 : is_snowflake cIn = false)
    (hc2 : alookup (chanKey g cIn) c.channels = some cid)
    (hc3 : bot.get_channel cid = none)
    (hu1 : is_snowflake (stripAts uIn) = false)
    (hu2 : alookup (lowerStr (stripAts uIn)) c.users = some uid)
    (hu3 : (bot.fetchUser uid).isOk = false) :
    ((resolve_server bot c sIn).1 =
      (resolve_server bot { c with servers := aerase (lowerStr sIn) c.servers } sIn).1) ∧
    ((resolve_server bot c sIn).1.1 = none → (resolve_server bot c sIn).2 = c) ∧
    ((resolve_channel bot c cIn g).1 =
      (resolve_channel bot { c with channels := aerase (chanKey g cIn) c.channels } cIn g).1) ∧
    ((resolve_channel bot c cIn g).1.1 = none → (resolve_channel bot c cIn g).2 = c) ∧
    (resolve_user bot c uIn =
      resolve_user bot { c with users := aerase (lowerStr (stripAts uIn)) c.users } uIn) := by
  have es1 : cachedGuild bot c (lowerStr sIn) = none := by
    rw [cachedGuild, hs2]
    exact hs3
  have es2 : cachedGuild bot { c with servers := aerase (lowerStr sIn) c.servers }
      (lowerStr sIn) = none := by
    simp [cachedGuild, alookup_aerase]
  have ec1 : cachedChannel bot c (chanKey g cIn) = none := by
    rw [cachedChannel, hc2]
    exact hc3
  have ec2 : cachedChannel bot { c with channels := aerase (chanKey g cIn) c.channels }
      (chanKey g cIn) = none := by
    simp [cachedChannel, alookup_aerase]
  refine ⟨?_, ?_, ?_, ?_, ?_⟩
  · rw [resolve_server, resolve_server, if_neg (by simp [hs1]), if_neg (by simp [hs1]),
      es1, es2]
    cases hf : bot.guilds.find? (fun g2 => lowerStr g2.name == lowerStr sIn) <;> simp
  · rw [resolve_server, if_neg (by simp [hs1]), es1]
    cases hf : bot.guilds.find? (fun g2 => lowerStr g2.name == lowerStr sIn) <;> simp
  · rw [resolve_channel, resolve_channel, if_neg (by simp [hc1]), if_neg (by simp [hc1]),
      ec1, ec2]
    cases hm : chanMatches bot g cIn with
    | nil => simp
    | cons ch1 t =>
        cases t with
        | nil => simp
        | cons ch2 t2 => cases g <;> simp
  · rw [resolve_channel, if_neg (by simp [hc1]), ec1]
    cases hm : chanMatches bot g cIn with
    | nil => simp
    | cons ch1 t =>
        cases t with
        | nil => simp
        | cons ch2 t2 => cases g <;> simp
  · have l1 : userCacheStep bot c (lowerStr (stripAts uIn)) =
        (none, { c with users := aerase (lowerStr (stripAts uIn)) c.users }) := by
      rw [userCacheStep, hu2]
      cases hv : bot.fetchUser uid with
      | ok u =>
          rw [hv] at hu3
          exact absurd hu3 (by simp [FetchRes.isOk])
      | notFound => simp [hv]
      | err e => simp [hv]
    have l2 : userCacheStep bot { c with users := aerase (lowerStr (stripAts uIn)) c.users }
        (lowerStr (stripAts uIn)) =
        (none, { c with users := aerase (lowerStr (stripAts uIn)) c.users }) := by
      simp [userCacheStep, alookup_aerase]
    rw [resolve_user, resolve_user, if_neg (by simp [hu1]), if_neg (by simp [hu1]), l1, l2]

/-- Witness for C2 (amended) at a concrete stale cache of all three kinds. -/
theorem C2_stale_hit_falls_back_witness :
    ((resolve_server botEmpty cacheStale3 "x").1 =
      (resolve_server botEmpty
        { cacheStale3 with servers := aerase (lowerStr "x") cacheStale3.servers } "x").1) ∧
    ((resolve_server botEmpty cacheStale3 "x").1.1 = none →
      (resolve_server botEmpty cacheStale3 "x").2 = cacheStale3) ∧
    ((resolve_channel botEmpty cacheStale3 "ch" none).1 =
      (resolve_channel botEmpty
        { cacheStale3 with channels := aerase (chanKey none "ch") cacheStale3.channels }
        "ch" none).1) ∧
    ((resolve_channel botEmpty cacheStale3 "ch" none).1.1 = none →
      (resolve_channel botEmpty cacheStale3 "ch" none).2 = cacheStale3) ∧
    (resolve_user botEmpty cacheStale3 "y" =
      resolve_user botEmpty
        { cacheStale3 with users := aerase (lowerStr (stripAts "y")) cacheStale3.users } "y") :=
  C2_stale_hit_falls_back botEmpty cacheStale3 "x" "ch" "y" none 999 998 997
    (by decide) (by decide) (by decide) (by decide) (by decide) (by decide)
    (by decide) (by decide) (by decide)

/-- Claim C3 (amended): send_message tries the target as a channel first;
when the channel is found, user resolution is never attempted; when
channel resolution fails with the unscoped ambiguity report (detected by
the `"Multiple channels"` substring), that error is replied immediately
and user resolution is never attempted; on ANY other channel failure —
NotFound, the not-a-text-channel identifier error, or the scoped
duplicate-name internal error — the chain falls through to user
resolution, and when that also fails the reply concatenates both failure
reasons. -/
theorem C3_channel_first_ambiguity_propagates (bot : Bot) (c : Cache) (msg target : String)
    (hns : (parse_target target).1 = none) :
    (∀ ch,
      (resolve_channel bot c (parse_target target).2 none).1.1 = some ch →
      (send_message bot c msg target).2 = [REv.rchannel (parse_target target).2]) ∧
    (∀ e,
      (resolve_channel bot c (parse_target target).2 none).1 = (none, some e) →
      (strContains e "Multiple channels" = true →
        (send_message bot c msg target).1.1 = SendOut.reply e ∧
        (send_message bot c msg target).2 = [REv.rchannel (parse_target target).2]) ∧
      (strContains e "Multiple channels" = false →
        (send_message bot c msg target).2 =
          [REv.rchannel (parse_target target).2, REv.ruser (parse_target target).2] ∧
        ∀ ue,
          (resolve_user bot (resolve_channel bot c (parse_target target).2 none).2
            (parse_target target).2).1 = (none, some ue) →
          (send_message bot c msg target).1.1 =
            SendOut.reply ("ERROR: Could not find channel or user '" ++ target ++
              "'.\n\n" ++ ("Channel lookup failed: " ++ e ++ "\n\n") ++
              ("User lookup failed: " ++ ue)))) := by
  set tp := (parse_target target).2 with htp
  have hpt : parse_target target = (none, tp) := by
    rw [htp, ← hns]
  rcases hrc : resolve_channel bot c tp none with ⟨⟨chOpt, chErr⟩, c2⟩
  constructor
  · intro ch hch
    have hch2 : chOpt = some ch := hch
    subst hch2
    cases hpm : process_mentions bot msg none with
    | ok pm => simp [send_message, sendAfterServer, hpt, hrc, hpm]
    | error e2 => simp [send_message, sendAfterServer, hpt, hrc, hpm]
  · intro e he
    have he5 : (chOpt, chErr) = ((none : Option Channel), some e) := he
    rw [Prod.mk.injEq] at he5
    obtain ⟨he3, he4⟩ := he5
    subst he3
    subst he4
    constructor
    · intro hamb
      constructor
      · simp [send_message, sendAfterServer, hpt, hrc, hamb]
      · simp [send_message, sendAfterServer, hpt, hrc, hamb]
    · intro hnamb
      rcases hru : resolve_user bot c2 tp with ⟨⟨uOpt, uErr⟩, c3⟩
      constructor
      · cases uOpt with
        | some u =>
            cases hpm : process_mentions bot msg none with
            | ok pm => simp [send_message, sendAfterServer, hpt, hrc, hnamb, hru, hpm]
            | error e2 => simp [send_message, sendAfterServer, hpt, hrc, hnamb, hru, hpm]
        | none => simp [send_message, sendAfterServer, hpt, hrc, hnamb, hru]
      · intro ue hue
        have hue5 : (uOpt, uErr) = ((none : Option User), some ue) := hue
        rw [Prod.mk.injEq] at hue5
        obtain ⟨hu3, hu4⟩ := hue5
        subst hu3
        subst hu4
        simp [send_message, sendAfterServer, hpt, hrc, hnamb, hru]

/-- Witness for C3 (amended) at the voice-channel snowflake target: the
chain falls through to user resolution on the non-ambiguous
not-a-text-channel failure and replies with the combined report. -/
theorem C3_channel_first_ambiguity_propagates_witness :
    ((send_message botVoice cache0 "m" "10000000000000000").2 =
      [REv.rchannel (parse_target "10000000000000000").2,
       REv.ruser (parse_target "10000000000000000").2]) ∧
    ((send_message botVoice cache0 "m" "10000000000000000").1.1 =
      SendOut.reply ("ERROR: Could not find channel or user '" ++ "10000000000000000" ++
        "'.\n\n" ++ ("Channel lookup failed: " ++
          "ERROR: '10000000000000000' is a valid ID but it's not a text channel (it's a VoiceChannel)." ++
          "\n\n") ++
        ("User lookup failed: " ++
          "ERROR: '10000000000000000' is not a valid user ID. No user with this ID exists."))) := by
  have h := ((C3_channel_first_ambiguity_propagates botVoice cache0 "m" "10000000000000000"
    (by decide)).2
    "ERROR: '10000000000000000' is a valid ID but it's not a text channel (it's a VoiceChannel)."
    (by decide)).2 (by decide)
  exact ⟨h.1, h.2
    "ERROR: '10000000000000000' is not a valid user ID. No user with this ID exists."
    (by decide)⟩

/-- Claim C10: the name path of `resolve_channel` considers only text
channels: every match candidate is a text channel, a name borne only by
voice/forum channels yields the name-path NotFound error (not the
identifier path's not-a-text-channel error), a unique text match is
returned even when non-text channels share the name, and any channel the
resolver returns is a text channel (given the cache hygiene the program
itself maintains). -/
theorem C10_name_path_text_channels_only (bot : Bot) (c : Cache) (input : String)
    (g : Option Guild)
    (h1 : is_snowflake input = false)
    (h2 : chanCacheOK bot c) :
    (∀ ch, (resolve_channel bot c input g).1.1 = some ch → ch.kind = ChanKind.text) ∧
    (cachedChannel bot c (chanKey g input) = none →
      (chanMatches bot g input = [] →
        (resolve_channel bot c input g).1 = (none, some (chanNotFoundMsg input g))) ∧
      (∀ ch, chanMatches bot g input = [ch] →
        (resolve_channel bot c input g).1 = (some ch, none))) ∧
    (∀ ch, ch ∈ chanMatches bot g input → ch.kind = ChanKind.text) := by
  have hmemtext : ∀ ch, ch ∈ chanMatches bot g input → ch.kind = ChanKind.text := by
    intro ch hch
    have := (List.mem_filter.mp hch).2
    rw [Bool.and_eq_true] at this
    have hk := this.1
    rwa [beq_iff_eq] at hk
  refine ⟨?_, ?_, hmemtext⟩
  · intro ch hch
    rw [resolve_channel, if_neg (by simp [h1])] at hch
    cases hcc : cachedChannel bot c (chanKey g input) with
    | some ch0 =>
        rw [hcc] at hch
        simp only at hch
        have hch2 : ch0 = ch := Option.some.inj hch
        subst hch2
        rw [cachedChannel] at hcc
        cases halk : alookup (chanKey g input) c.channels with
        | none => rw [halk] at hcc; exact absurd hcc (by simp)
        | some cid =>
            rw [halk] at hcc
            exact h2 (chanKey g input) cid ch0 halk hcc
    | none =>
        rw [hcc] at hch
        cases hm : chanMatches bot g input with
        | nil => rw [hm] at hch; exact absurd hch (by simp)
        | cons ch1 t =>
            cases t with
            | nil =>
                rw [hm] at hch
                simp only at hch
                have hch2 : ch1 = ch := Option.some.inj hch
                subst hch2
                exact hmemtext ch1 (by rw [hm]; exact List.mem_cons_self _ _)
            | cons ch2 t2 =>
                rw [hm] at hch
                cases g with
                | none => exact absurd hch (by simp)
                | some g0 => exact absurd hch (by simp)
  · intro hmiss
    constructor
    · intro hm
      rw [resolve_channel, if_neg (by simp [h1]), hmiss, hm]
    · intro ch hm
      rw [resolve_channel, if_neg (by simp [h1]), hmiss, hm]

/-- Witness for C10: a name borne only by a voice channel is NotFound by
name; a name borne by one text and one voice channel resolves uniquely to
the text channel with no ambiguity error. -/
theorem C10_name_path_text_channels_only_witness :
    ((resolve_channel botVoice cache0 "vc" none).1 =
      (none, some (chanNotFoundMsg "vc" none))) ∧
    ((resolve_channel botMixed cache0 "general" none).1 = (some textGen, none)) ∧
    textGen.kind = ChanKind.text :=
  ⟨((C10_name_path_text_channels_only botVoice cache0 "vc" none (by decide)
      (by intro k id ch hx; simp [cache0, alookup] at hx)).2.1 (by decide)).1 (by decide),
   ((C10_name_path_text_channels_only botMixed cache0 "general" none (by decide)
      (by intro k id ch hx; simp [cache0, alookup] at hx)).2.1 (by decide)).2 textGen (by decide),
   (C10_name_path_text_channels_only botMixed cache0 "general" none (by decide)
      (by intro k id ch hx; simp [cache0, alookup] at hx)).2.2 textGen (by decide)⟩

end DiscordMCP
